import Mathlib

/-!
Verification of the core data-filtering-and-aggregation pipeline of the
CLS SLA reporting dashboard (`streamlit_app.py`).

Rows of the work-order table are modelled as `WorkOrder` records; nullable
cells (`NaN`/`NaT` in the dataframe) are `Option` fields.  Dates are modelled
as natural numbers (day ordinals), durations as rationals.  The pandas
operations used by the app (`isin`, elementwise date comparison with `NaT`
yielding `False`, `Series.mean` returning `NaN` on an empty series and
skipping nulls, `Series.map` over a dict sending missing keys to `NaN`,
`value_counts` dropping nulls) are embedded by explicit, executable Lean
functions below.
-/

namespace ClsReporting

/-- One row of the work-order dataset, after `load_data` has parsed it.
`dateCreated`/`toDoDate` are `none` when the cell failed to parse (`NaT`);
the time and SLA-boolean columns are `none` when the cell is missing. -/
structure WorkOrder where
  priority : String
  assignTo : String
  subCategory : Option String
  dateCreated : Option Nat
  toDoDate : Option Nat
  responseTimeMinutes : Option ℚ
  resolutionTimeMinutes : Option ℚ
  slaRespondMet : Option Bool
  slaResolutionMet : Option Bool
deriving DecidableEq, Repr

/-- The sidebar filter state: selected priorities, assignees, an inclusive
date range, and selected sub-categories. -/
structure FilterSelection where
  priorities : List String
  assignees : List String
  dateStart : Nat
  dateEnd : Nat
  subCategories : List String
deriving DecidableEq, Repr

/-- The boolean mask of lines 63-66 of `streamlit_app.py`:
`Priority.isin(priorities) & AssignTo.isin(assignees) &
 (DateCreated.dt.date >= start) & (DateCreated.dt.date <= end)`.
Each date comparison is elementwise and yields `False` on a `NaT` cell. -/
def basePred (sel : FilterSelection) (r : WorkOrder) : Bool :=
  sel.priorities.contains r.priority &&
  sel.assignees.contains r.assignTo &&
  (match r.dateCreated with
   | none => false
   | some d => decide (sel.dateStart ≤ d)) &&
  (match r.dateCreated with
   | none => false
   | some d => decide (d ≤ sel.dateEnd))

/-- The mask of line 70: `SubCategory.isin(subcategories)`; `isin` is `false`
on a null (`NaN`) cell since the selectable options are the non-null values. -/
def subCatPred (sel : FilterSelection) (r : WorkOrder) : Bool :=
  match r.subCategory with
  | none => false
  | some s => sel.subCategories.contains s

/-- `filtered_df` (lines 62-70): apply the base mask, then, when the dataset
has a `Sub Category` column, additionally the sub-category mask. -/
def filtered_df (hasSubCat : Bool) (sel : FilterSelection) (rows : List WorkOrder) :
    List WorkOrder :=
  let base := rows.filter (basePred sel)
  if hasSubCat then base.filter (subCatPred sel) else base

/-- The single-pass form of the row mask.  `filtered_eq` below shows
`filtered_df` equals one `filter` with this predicate. -/
def rowPred (hasSubCat : Bool) (sel : FilterSelection) (r : WorkOrder) : Bool :=
  basePred sel r && (if hasSubCat then subCatPred sel r else true)

theorem filtered_eq (hasSubCat : Bool) (sel : FilterSelection) (rows : List WorkOrder) :
    filtered_df hasSubCat sel rows = rows.filter (rowPred hasSubCat sel) := by
  unfold filtered_df rowPred
  cases hasSubCat with
  | true =>
    simp only [if_true, List.filter_filter]
    congr 1
    funext r
    by_cases h : basePred sel r <;> simp [h, Bool.and_comm]
  | false => simp

/-! ### Loader-derived columns (lines 18-19 of `streamlit_app.py`)

`df["SLA_Respond_Met"].map({True: "PASS", False: "FAIL"})`: a pandas
dict-`map` sends a key found in the dict to its value and anything else
(here only the null cell) to `NaN`. -/

/-- The dict `{True: "PASS", False: "FAIL"}` applied through `Series.map`. -/
def mapStatus (b : Option Bool) : Option String :=
  b.bind (fun x => if x = true then some "PASS" else if x = false then some "FAIL" else none)

/-- Derived column `SLA_Respond_Status` (line 18). -/
def slaRespondStatus (r : WorkOrder) : Option String :=
  mapStatus r.slaRespondMet

/-- Derived column `SLA_Resolution_Status` (line 19). -/
def slaResolutionStatus (r : WorkOrder) : Option String :=
  mapStatus r.slaResolutionMet

/-! ### Default / reset selection (lines 34-37 and 45-48)

`priorities = df["Priority"].unique()`, `assignees = df["Assign To"].unique()`,
`date_range = [df["Date Created"].min().date(), df["Date Created"].max().date()]`
(`Series.min`/`max` skip `NaT`, and raise on an all-`NaT` column, hence the
`Option` result), and `subcategories = df["Sub Category"].dropna().unique()`. -/

/-- The default (and reset) sidebar selection.  `none` when the dataset has
no parseable `Date Created` at all, in which case line 36 raises. -/
def defaultSelection (hasSubCat : Bool) (rows : List WorkOrder) : Option FilterSelection :=
  let dates := rows.filterMap (·.dateCreated)
  match dates.min?, dates.max? with
  | some lo, some hi =>
      some { priorities := (rows.map (·.priority)).dedup
           , assignees := (rows.map (·.assignTo)).dedup
           , dateStart := lo
           , dateEnd := hi
           , subCategories :=
               if hasSubCat then (rows.filterMap (·.subCategory)).dedup else [] }
  | _, _ => none

/-! ### Aggregator -/

/-- `len(subset)` (line 87). -/
def totalCount (subset : List WorkOrder) : Nat := subset.length

/-- `Series.mean` on an already null-stripped list of values: `NaN` (here
`none`) on the empty series, the arithmetic mean otherwise. -/
def seriesMean (xs : List ℚ) : Option ℚ :=
  if xs.isEmpty then none else some (xs.sum / xs.length)

/-- `filtered_df["Response Time (min)"].mean()` (line 88): pandas `mean`
skips null cells and yields `NaN` when no value remains. -/
def meanResponseTime (subset : List WorkOrder) : Option ℚ :=
  seriesMean (subset.filterMap (·.responseTimeMinutes))

/-- `(filtered_df[col] == True).mean() * 100` (lines 91-92): the elementwise
`== True` comparison is `False` on a null cell, the mean of the resulting
0/1 series is taken over every row of the subset, and an empty subset
gives `NaN`. -/
def passPercentage (field : WorkOrder → Option Bool) (subset : List WorkOrder) : Option ℚ :=
  (seriesMean (subset.map (fun r => if field r == some true then (1 : ℚ) else 0))).map
    (· * 100)

/-- The breach mask of line 163:
`(SLA_Respond_Met == False) | (SLA_Resolution_Met == False)`; an elementwise
`== False` comparison is `False` on a null cell. -/
def isBreach (r : WorkOrder) : Bool :=
  (r.slaRespondMet == some false) || (r.slaResolutionMet == some false)

/-- `Series.value_counts()` on a list of (non-null) values: one entry per
distinct value present, with its multiplicity. -/
def valueCounts (vals : List String) : List (String × Nat) :=
  vals.dedup.map (fun s => (s, vals.count s))

/-- `breach_df["Assign To"].value_counts()` (lines 163-164). -/
def breachCounts (subset : List WorkOrder) : List (String × Nat) :=
  valueCounts ((subset.filter isBreach).map (·.assignTo))

/-- `filtered_df[statusCol].value_counts()` (lines 177 and 183):
`value_counts` drops null cells before counting. -/
def statusDistribution (field : WorkOrder → Option String) (subset : List WorkOrder) :
    List (String × Nat) :=
  valueCounts (subset.filterMap field)

/-- Count held by a `value_counts` table for a given value, `0` when the
value does not appear as a key. -/
def vcCount (d : List (String × Nat)) (s : String) : Nat :=
  (d.lookup s).getD 0

/-! ### Concrete sample rows and selections, used to instantiate theorems -/

/-- A fully populated sample row (the worked example of the spec, §8). -/
def wo1 : WorkOrder :=
  { priority := "High", assignTo := "A", subCategory := some "Roads"
  , dateCreated := some 10, toDoDate := some 12
  , responseTimeMinutes := some 10, resolutionTimeMinutes := some 50
  , slaRespondMet := some true, slaResolutionMet := some false }

/-- `wo1` with an unparsable `Date Created` cell. -/
def woNullDate : WorkOrder := { wo1 with dateCreated := none }

/-- `wo1` with a null `Sub Category` cell. -/
def woNullSub : WorkOrder := { wo1 with subCategory := none }

/-- A selection that matches `wo1`. -/
def sel1 : FilterSelection :=
  { priorities := ["High"], assignees := ["A"]
  , dateStart := 0, dateEnd := 20, subCategories := ["Roads"] }

/-- A selection with an empty priorities set. -/
def selNoPrio : FilterSelection := { sel1 with priorities := [] }

/-! ## Claims -/

/-- **C1.** For every dataset and every `FilterSelection`, the filter keeps a
row iff its priority is in `selection.priorities`, its assignee is in
`selection.assignees`, its `dateCreated` is non-null and lies within the
inclusive `[start, end]` range, and (when a sub-category column exists) its
`subCategory` is in `selection.subCategories`; in particular a row with null
`dateCreated` is never retained. -/
theorem filter_retains_iff (hasSubCat : Bool) (sel : FilterSelection)
    (rows : List WorkOrder) (r : WorkOrder) :
    r ∈ filtered_df hasSubCat sel rows ↔
      r ∈ rows ∧ r.priority ∈ sel.priorities ∧ r.assignTo ∈ sel.assignees ∧
        (∃ d, r.dateCreated = some d ∧ sel.dateStart ≤ d ∧ d ≤ sel.dateEnd) ∧
        (hasSubCat = true → ∃ s, r.subCategory = some s ∧ s ∈ sel.subCategories) := by
  rw [filtered_eq, List.mem_filter]
  refine and_congr_right fun _ => ?_
  rcases r with ⟨p, a, sc, dc, td, rt, st, sr, sm⟩
  cases dc with
  | none => simp [rowPred, basePred]
  | some d =>
    cases hasSubCat with
    | false =>
      simp [rowPred, basePred, List.elem_iff, and_assoc]
    | true =>
      cases sc with
      | none => simp [rowPred, basePred, subCatPred, List.elem_iff, and_assoc]
      | some s => simp [rowPred, basePred, subCatPred, List.elem_iff, and_assoc]

/-- **C3.** If the selected priorities set, the selected assignees set, or —
when a sub-category column exists — the selected sub-categories set is empty,
the filter returns the empty subset. -/
theorem empty_selection_gives_empty (hasSubCat : Bool) (sel : FilterSelection)
    (rows : List WorkOrder)
    (h : sel.priorities = [] ∨ sel.assignees = [] ∨
         (hasSubCat = true ∧ sel.subCategories = [])) :
    filtered_df hasSubCat sel rows = [] := by
  rw [filtered_eq, List.filter_eq_nil_iff]
  intro r _
  rcases h with h | h | ⟨hh, h⟩
  · simp [rowPred, basePred, h]
  · simp [rowPred, basePred, h]
  · subst hh
    rcases hsc : r.subCategory with _ | s <;>
      simp [rowPred, subCatPred, h, hsc]

/-- Witness for C3 at a concrete dataset and selection. -/
theorem empty_selection_gives_empty_witness :
    (selNoPrio.priorities = [] ∨ selNoPrio.assignees = [] ∨
       (true = true ∧ selNoPrio.subCategories = [])) ∧
      filtered_df true selNoPrio [wo1] = [] :=
  ⟨Or.inl rfl, empty_selection_gives_empty true selNoPrio [wo1] (Or.inl rfl)⟩

/-- **C8.** The filtered result is a subset of the input rows: every output
row occurs in the input, and no row occurs more often in the output than in
the input. -/
theorem filter_is_subset (hasSubCat : Bool) (sel : FilterSelection)
    (rows : List WorkOrder) :
    (∀ r ∈ filtered_df hasSubCat sel rows, r ∈ rows) ∧
      ∀ r : WorkOrder,
        (filtered_df hasSubCat sel rows).count r ≤ rows.count r := by
  have hsub : (filtered_df hasSubCat sel rows).Sublist rows := by
    rw [filtered_eq]; exact List.filter_sublist rows
  exact ⟨fun r hr => hsub.subset hr, fun r => hsub.count_le r⟩

/-- Witness for C8 at a concrete dataset and selection. -/
theorem filter_is_subset_witness :
    wo1 ∈ filtered_df true sel1 [wo1, woNullDate] ∧
      wo1 ∈ [wo1, woNullDate] ∧
      (filtered_df true sel1 [wo1, woNullDate]).count wo1 ≤
        ([wo1, woNullDate]).count wo1 :=
  ⟨by decide, (filter_is_subset true sel1 [wo1, woNullDate]).1 wo1 (by decide),
    (filter_is_subset true sel1 [wo1, woNullDate]).2 wo1⟩

/-- **C9.** The filter is idempotent: applying it twice with the same
selection equals applying it once. -/
theorem filter_idempotent (hasSubCat : Bool) (sel : FilterSelection)
    (rows : List WorkOrder) :
    filtered_df hasSubCat sel (filtered_df hasSubCat sel rows) =
      filtered_df hasSubCat sel rows := by
  simp only [filtered_eq, List.filter_filter]
  exact List.filter_congr fun r _ => Bool.and_self _

/-- The sum of a 0/1 indicator series is the number of rows satisfying the
indicator. -/
theorem sum_indicator_eq_countP (p : WorkOrder → Bool) (l : List WorkOrder) :
    (l.map (fun r => if p r then (1 : ℚ) else 0)).sum = l.countP p := by
  induction l with
  | nil => simp
  | cons a t ih =>
      by_cases h : p a <;>
        simp [h, ih, List.countP_cons, add_comm]

/-- **C4.** `passPercentage` equals `100 * count(field == true) / count(subset)`
on a non-empty subset — rows with a null field count in the denominator but
not the numerator — and is `NaN` (here `none`, in particular neither 0% nor
100%) on the empty subset. -/
theorem passPercentage_spec (field : WorkOrder → Option Bool) (subset : List WorkOrder) :
    (subset ≠ [] →
        passPercentage field subset =
          some (100 * (subset.countP (fun r => field r == some true) : ℚ) /
                (totalCount subset : ℚ))) ∧
      (subset = [] →
        passPercentage field subset = none ∧
          passPercentage field subset ≠ some 0 ∧
          passPercentage field subset ≠ some 100) := by
  constructor
  · intro hne
    have hfalse :
        (subset.map (fun r => if field r == some true then (1 : ℚ) else 0)).isEmpty
          = false := by
      simp [List.isEmpty_iff, hne]
    unfold passPercentage seriesMean
    rw [sum_indicator_eq_countP]
    simp only [hfalse, Bool.false_eq_true, if_false, Option.map_some', List.length_map,
      totalCount, Option.some.injEq]
    rw [div_mul_eq_mul_div, mul_comm]
  · intro he
    subst he
    refine ⟨rfl, by simp [passPercentage, seriesMean], by simp [passPercentage, seriesMean]⟩

/-- Witness for C4 at a concrete one-row subset. -/
theorem passPercentage_spec_witness :
    ([wo1] ≠ ([] : List WorkOrder)) ∧
      passPercentage (fun r => r.slaRespondMet) [wo1] =
        some (100 * (([wo1]).countP (fun r => r.slaRespondMet == some true) : ℚ) /
              (totalCount [wo1] : ℚ)) :=
  ⟨by decide,
    (passPercentage_spec (fun r => r.slaRespondMet) [wo1]).1 (by decide)⟩

/-- **C5.** `meanResponseTime` is the arithmetic mean of the non-null
`responseTimeMinutes` values; when every value is null (the empty subset
included) it is `NaN`/null (here `none`), a value distinct from a true zero
mean. -/
theorem meanResponseTime_spec (subset : List WorkOrder) :
    (subset.filterMap (·.responseTimeMinutes) = [] →
        meanResponseTime subset = none ∧ meanResponseTime subset ≠ some 0) ∧
      (subset.filterMap (·.responseTimeMinutes) ≠ [] →
        meanResponseTime subset =
          some ((subset.filterMap (·.responseTimeMinutes)).sum /
                (subset.filterMap (·.responseTimeMinutes)).length)) := by
  constructor
  · intro he
    unfold meanResponseTime seriesMean
    simp [he]
  · intro hne
    unfold meanResponseTime seriesMean
    simp [List.isEmpty_iff, hne]

/-- Witness for C5: an all-null subset yields `none`, a subset with one
non-null value yields its mean. -/
theorem meanResponseTime_spec_witness :
    (([woNullDate] : List WorkOrder).filterMap (·.responseTimeMinutes) ≠ [] ∧
        meanResponseTime [woNullDate] =
          some ((([woNullDate] : List WorkOrder).filterMap (·.responseTimeMinutes)).sum /
                (([woNullDate] : List WorkOrder).filterMap (·.responseTimeMinutes)).length)) ∧
      (([] : List WorkOrder).filterMap (·.responseTimeMinutes) = [] ∧
        meanResponseTime [] = none) :=
  ⟨⟨by decide, (meanResponseTime_spec [woNullDate]).2 (by decide)⟩,
    ⟨rfl, ((meanResponseTime_spec []).1 rfl).1⟩⟩

/-- **C10.** The derived SLA statuses come from the boolean fields by exactly
`true → "PASS"`, `false → "FAIL"`, `null → null`. -/
theorem status_mapping_exact (r : WorkOrder) :
    slaRespondStatus r =
        (match r.slaRespondMet with
          | some true => some "PASS"
          | some false => some "FAIL"
          | none => none) ∧
      slaResolutionStatus r =
        (match r.slaResolutionMet with
          | some true => some "PASS"
          | some false => some "FAIL"
          | none => none) := by
  constructor
  · unfold slaRespondStatus mapStatus
    rcases r.slaRespondMet with _ | b
    · rfl
    · cases b <;> rfl
  · unfold slaResolutionStatus mapStatus
    rcases r.slaResolutionMet with _ | b
    · rfl
    · cases b <;> rfl

/-- Membership in a `value_counts` table: `(a, n)` is an entry iff `a`
occurs in the series and `n` is its multiplicity. -/
theorem mem_valueCounts (vals : List String) (a : String) (n : Nat) :
    (a, n) ∈ valueCounts vals ↔ a ∈ vals ∧ n = vals.count a := by
  unfold valueCounts
  simp only [List.mem_map, List.mem_dedup, Prod.mk.injEq]
  constructor
  · rintro ⟨s, hs, rfl, rfl⟩
    exact ⟨hs, rfl⟩
  · rintro ⟨ha, rfl⟩
    exact ⟨a, ha, rfl, rfl⟩

/-- Looking up a key in a table that tabulates a function over a key list
returns the function's value iff the key is listed. -/
theorem lookup_tabulate (f : String → Nat) (l : List String) (s : String) :
    (l.map (fun t => (t, f t))).lookup s = if s ∈ l then some (f s) else none := by
  induction l with
  | nil => simp [List.lookup]
  | cons a t ih =>
      by_cases h : s = a
      · subst h
        simp [List.lookup]
      · have hb : (s == a) = false := by simpa using h
        simp [List.lookup, hb, ih, h]

/-- `vcCount` of a `value_counts` table is exactly the multiplicity in the
underlying series. -/
theorem vcCount_valueCounts (vals : List String) (s : String) :
    vcCount (valueCounts vals) s = vals.count s := by
  unfold vcCount valueCounts
  rw [lookup_tabulate]
  by_cases h : s ∈ vals.dedup
  · simp [h]
  · have hnot : s ∉ vals := fun hs => h (List.mem_dedup.2 hs)
    simp [h, (List.count_eq_zero).2 hnot]

/-- **C6.** `breachCounts` has an entry `(a, n)` iff `n` is positive and `n`
is the number of rows assigned to `a` whose `slaRespondMet` is `false` or
whose `slaResolutionMet` is `false` (a null boolean never makes a breach);
so an assignee appears iff they have at least one breach row. -/
theorem breachCounts_spec (subset : List WorkOrder) (a : String) (n : Nat) :
    (a, n) ∈ breachCounts subset ↔
      0 < n ∧
        n = subset.countP (fun r =>
              (r.assignTo == a) &&
                ((r.slaRespondMet == some false) || (r.slaResolutionMet == some false))) := by
  unfold breachCounts
  rw [mem_valueCounts]
  have hcount :
      ((subset.filter isBreach).map (·.assignTo)).count a =
        subset.countP (fun r =>
          (r.assignTo == a) &&
            ((r.slaRespondMet == some false) || (r.slaResolutionMet == some false))) := by
    rw [List.count_eq_countP, List.countP_map, List.countP_filter]
    rfl
  constructor
  · rintro ⟨ha, rfl⟩
    exact ⟨List.count_pos_iff.2 ha, hcount⟩
  · rintro ⟨hpos, rfl⟩
    refine ⟨List.count_pos_iff.1 ?_, hcount.symm⟩
    rw [hcount]
    exact hpos

/-- Witness for C6: the one-row sample has a resolution breach, so its
assignee appears with count 1. -/
theorem breachCounts_spec_witness :
    ("A", 1) ∈ breachCounts [wo1] :=
  (breachCounts_spec [wo1] "A" 1).2 ⟨by decide, by decide⟩

/-- Every row's derived status is `PASS`, `FAIL`, or null, so those three
row counts partition the subset. -/
theorem countP_status_partition (g : WorkOrder → Option Bool) (l : List WorkOrder) :
    l.countP (fun r => g r == some true) + l.countP (fun r => g r == some false) +
        l.countP (fun r => g r == none) = l.length := by
  induction l with
  | nil => rfl
  | cons a t ih =>
      rcases h : g a with _ | b
      · simp [List.countP_cons, h]
        omega
      · cases b <;>
          · simp [List.countP_cons, h]
            omega

/-- Counting a value in a null-stripped series equals counting rows whose
cell holds exactly that value. -/
theorem count_filterMap_status (f : WorkOrder → Option String) (l : List WorkOrder)
    (s : String) :
    (l.filterMap f).count s = l.countP (fun r => f r == some s) := by
  rw [List.count_eq_countP, List.countP_filterMap]
  refine List.countP_congr fun r _ => ?_
  rcases h : f r with _ | t <;> simp [h]

/-- **C7.** For each SLA status field, `statusDistribution` counts exactly
the rows whose underlying boolean is `true` (as `PASS`) and exactly those
whose boolean is `false` (as `FAIL`) — a null status is never counted as
`FAIL` — and `PASS` count + `FAIL` count + null-status rows = total row
count of the subset. -/
theorem statusDistribution_spec (subset : List WorkOrder) :
    (vcCount (statusDistribution slaRespondStatus subset) "PASS" =
        subset.countP (fun r => r.slaRespondMet == some true) ∧
      vcCount (statusDistribution slaRespondStatus subset) "FAIL" =
        subset.countP (fun r => r.slaRespondMet == some false) ∧
      vcCount (statusDistribution slaRespondStatus subset) "PASS" +
          vcCount (statusDistribution slaRespondStatus subset) "FAIL" +
          subset.countP (fun r => r.slaRespondMet == none) = totalCount subset) ∧
    (vcCount (statusDistribution slaResolutionStatus subset) "PASS" =
        subset.countP (fun r => r.slaResolutionMet == some true) ∧
      vcCount (statusDistribution slaResolutionStatus subset) "FAIL" =
        subset.countP (fun r => r.slaResolutionMet == some false) ∧
      vcCount (statusDistribution slaResolutionStatus subset) "PASS" +
          vcCount (statusDistribution slaResolutionStatus subset) "FAIL" +
          subset.countP (fun r => r.slaResolutionMet == none) = totalCount subset) := by
  have key : ∀ g : WorkOrder → Option Bool,
      vcCount (statusDistribution (fun r => mapStatus (g r)) subset) "PASS" =
          subset.countP (fun r => g r == some true) ∧
        vcCount (statusDistribution (fun r => mapStatus (g r)) subset) "FAIL" =
          subset.countP (fun r => g r == some false) ∧
        vcCount (statusDistribution (fun r => mapStatus (g r)) subset) "PASS" +
            vcCount (statusDistribution (fun r => mapStatus (g r)) subset) "FAIL" +
            subset.countP (fun r => g r == none) = totalCount subset := by
    intro g
    have hp :
        vcCount (statusDistribution (fun r => mapStatus (g r)) subset) "PASS" =
          subset.countP (fun r => g r == some true) := by
      unfold statusDistribution
      rw [vcCount_valueCounts, count_filterMap_status]
      refine List.countP_congr fun r _ => ?_
      rcases h : g r with _ | b
      · simp [mapStatus, h]
      · cases b <;> simp [mapStatus, h]
    have hf :
        vcCount (statusDistribution (fun r => mapStatus (g r)) subset) "FAIL" =
          subset.countP (fun r => g r == some false) := by
      unfold statusDistribution
      rw [vcCount_valueCounts, count_filterMap_status]
      refine List.countP_congr fun r _ => ?_
      rcases h : g r with _ | b
      · simp [mapStatus, h]
      · cases b <;> simp [mapStatus, h]
    refine ⟨hp, hf, ?_⟩
    rw [hp, hf]
    exact countP_status_partition g subset
  have h1 := key (fun r => r.slaRespondMet)
  have h2 := key (fun r => r.slaResolutionMet)
  exact ⟨h1, h2⟩

/-- Inversion of the default-selection construction: when it succeeds, the
date range is the min/max of the parseable dates and the value sets are the
deduplicated observed values (sub-categories null-stripped). -/
theorem defaultSelection_eq_some (hasSubCat : Bool) (rows : List WorkOrder)
    (sel : FilterSelection) (h : defaultSelection hasSubCat rows = some sel) :
    ∃ lo hi, (rows.filterMap (·.dateCreated)).min? = some lo ∧
      (rows.filterMap (·.dateCreated)).max? = some hi ∧
      sel = { priorities := (rows.map (·.priority)).dedup
            , assignees := (rows.map (·.assignTo)).dedup
            , dateStart := lo, dateEnd := hi
            , subCategories :=
                if hasSubCat then (rows.filterMap (·.subCategory)).dedup else [] } := by
  unfold defaultSelection at h
  rcases hlo : (rows.filterMap (·.dateCreated)).min? with _ | lo <;>
    rcases hhi : (rows.filterMap (·.dateCreated)).max? with _ | hi <;>
      simp only [hlo, hhi] at h
  · exact Option.noConfusion h
  · exact Option.noConfusion h
  · exact Option.noConfusion h
  · rw [Option.some.injEq] at h
    exact ⟨lo, hi, hlo, hhi, h.symm⟩

/-- **C2, counterexample.** On a dataset whose single row has a non-null
`dateCreated` but a null `subCategory`, the default (full-domain) selection
filters the row out — the filtered count is 0, while the count of rows with
non-null `dateCreated` is 1, so the full-domain filter is not a no-op modulo
null-date exclusion alone. -/
theorem fullDomain_not_noop_cex :
    (defaultSelection true [woNullSub]).map
        (fun sel => totalCount (filtered_df true sel [woNullSub])) = some 0 ∧
      totalCount (([woNullSub]).filter (fun r => r.dateCreated.isSome)) = 1 :=
  ⟨rfl, rfl⟩

/-- **C2, amended.** Applying the filter with the default/reset (full-domain)
selection yields a subset whose total row count equals that of the original
dataset, except for rows whose `dateCreated` is null and — when a
sub-category column exists — rows whose `subCategory` is null. -/
theorem fullDomain_filter_count (hasSubCat : Bool) (rows : List WorkOrder)
    (sel : FilterSelection) (h : defaultSelection hasSubCat rows = some sel) :
    totalCount (filtered_df hasSubCat sel rows) =
      totalCount (rows.filter fun r =>
        r.dateCreated.isSome && (!hasSubCat || r.subCategory.isSome)) := by
  obtain ⟨lo, hi, hlo, hhi, hsel⟩ := defaultSelection_eq_some hasSubCat rows sel h
  subst hsel
  rw [filtered_eq]
  unfold totalCount
  refine congrArg List.length (List.filter_congr fun r hr => ?_)
  have hp : ((rows.map (·.priority)).dedup).contains r.priority = true :=
    List.elem_iff.2 (List.mem_dedup.2 (List.mem_map_of_mem _ hr))
  have ha : ((rows.map (·.assignTo)).dedup).contains r.assignTo = true :=
    List.elem_iff.2 (List.mem_dedup.2 (List.mem_map_of_mem _ hr))
  have hminle : ∀ d ∈ rows.filterMap (·.dateCreated), lo ≤ d :=
    ((List.min?_eq_some_iff (fun a => le_refl a) (fun a b => min_choice a b)
      (fun a b c => le_min_iff)).1 hlo).2
  have hmaxge : ∀ d ∈ rows.filterMap (·.dateCreated), d ≤ hi :=
    ((List.max?_eq_some_iff (fun a => le_refl a) (fun a b => max_choice a b)
      (fun a b c => max_le_iff)).1 hhi).2
  rcases hdc : r.dateCreated with _ | d
  · simp [rowPred, basePred, hdc]
  · have hd : d ∈ rows.filterMap (·.dateCreated) := List.mem_filterMap.2 ⟨r, hr, hdc⟩
    have h1 : lo ≤ d := hminle d hd
    have h2 : d ≤ hi := hmaxge d hd
    cases hasSubCat with
    | false =>
        simp only [rowPred, basePred, subCatPred, hdc, hp, ha]
        simp [h1, h2]
    | true =>
        rcases hsc : r.subCategory with _ | s
        · simp [rowPred, basePred, subCatPred, hdc, hsc]
        · simp only [rowPred, basePred, subCatPred, hdc, hsc]
          simp [h1, h2]
          exact ⟨⟨⟨r, hr, rfl⟩, ⟨r, hr, rfl⟩⟩, ⟨r, hr, hsc⟩⟩

/-- Witness for the amended C2 at a concrete two-row dataset (one row with a
null `dateCreated`). -/
theorem fullDomain_filter_count_witness :
    defaultSelection true [wo1, woNullDate] =
        some { priorities := ["High"], assignees := ["A"], dateStart := 10, dateEnd := 10
             , subCategories := ["Roads"] } ∧
      totalCount (filtered_df true
          { priorities := ["High"], assignees := ["A"], dateStart := 10, dateEnd := 10
          , subCategories := ["Roads"] } [wo1, woNullDate]) =
        totalCount (([wo1, woNullDate]).filter fun r =>
          r.dateCreated.isSome && (!true || r.subCategory.isSome)) :=
  ⟨by rfl, fullDomain_filter_count true [wo1, woNullDate] _ (by rfl)⟩

end ClsReporting
